import Mathlib

/-!
Verification of the pytor hidden-service key management engine
(`src/pytor/onion.py`) against its natural-language specification.

The development shallowly embeds the Python module:
* bytes are `List Nat` (each element a byte value),
* `base64.b32encode` is embedded as `b32encode` (RFC 4648 with padding,
  exactly Python's semantics),
* `hashlib.sha1` is embedded as the concrete `sha1Hash`,
* the PyCryptodome RSA library is abstracted: an RSA key is a pair of its
  two exports (`exportKey("PEM")` for the private key, and
  `publickey().exportKey("DER")`), and `RSA.importKey` is a parameter
  `importKey : List Nat → Option RsaKey` (`none` models a parse failure),
* the filesystem is a map from directory paths to directory contents,
* Python exceptions are an explicit error type threaded through `Except`
  or returned next to the resulting filesystem.
-/

set_option autoImplicit false

namespace Pytor

/-! ## Base32 encoding (`base64.b32encode`) -/

/-- The RFC 4648 Base32 alphabet used by Python's `base64.b32encode`. -/
def b32alphabet : List Char := "ABCDEFGHIJKLMNOPQRSTUVWXYZ234567".toList

/-- Encode one 5-byte group as 8 Base32 characters. -/
def b32group (b0 b1 b2 b3 b4 : Nat) : List Char :=
  let n := b0 * 4294967296 + b1 * 16777216 + b2 * 65536 + b3 * 256 + b4
  [ b32alphabet.getD ((n >>> 35) % 32) 'A',
    b32alphabet.getD ((n >>> 30) % 32) 'A',
    b32alphabet.getD ((n >>> 25) % 32) 'A',
    b32alphabet.getD ((n >>> 20) % 32) 'A',
    b32alphabet.getD ((n >>> 15) % 32) 'A',
    b32alphabet.getD ((n >>> 10) % 32) 'A',
    b32alphabet.getD ((n >>> 5) % 32) 'A',
    b32alphabet.getD (n % 32) 'A' ]

/-- Encode a byte string whose length is a multiple of 5, 5 bytes at a time
(a trailing fragment shorter than 5 bytes is ignored; `b32encode` only
applies this to padded input). -/
def b32chunks : List Nat → List Char
  | b0 :: b1 :: b2 :: b3 :: b4 :: rest => b32group b0 b1 b2 b3 b4 ++ b32chunks rest
  | _ => []

/-- Python's `base64.b32encode`: zero-pad the input to a multiple of 5 bytes,
encode 5-byte groups to 8 characters each, then replace the trailing
characters by `=` according to the leftover length (0→0, 1→6, 2→4, 3→3,
4→1 pad characters). -/
def b32encode (bs : List Nat) : List Char :=
  let enc := b32chunks (bs ++ List.replicate ((5 - bs.length % 5) % 5) 0)
  let pad := [0, 6, 4, 3, 1].getD (bs.length % 5) 0
  enc.take (enc.length - pad) ++ List.replicate pad '='

/-- Unpadded RFC 4648 Base32 as the specification describes it
("Base32-encode (no padding)"): the encoding of the input without any
trailing `=` characters. -/
def b32noPadding (bs : List Nat) : List Char :=
  (b32chunks (bs ++ List.replicate ((5 - bs.length % 5) % 5) 0)).take
    ((bs.length * 8 + 4) / 5)

/-! ## SHA-1 (`hashlib.sha1`) -/

/-- Truncate to a 32-bit word. -/
def w32 (x : Nat) : Nat := x % 4294967296

/-- Rotate a 32-bit word left by `n` bits. -/
def rotl (n x : Nat) : Nat := w32 (x <<< n) ||| (x >>> (32 - n))

/-- Big-endian 4-byte groups to 32-bit words. -/
def toWords : List Nat → List Nat
  | b0 :: b1 :: b2 :: b3 :: rest =>
      (((b0 * 256 + b1) * 256 + b2) * 256 + b3) :: toWords rest
  | _ => []

/-- A 64-bit value as 8 big-endian bytes. -/
def len64 (n : Nat) : List Nat :=
  [(n >>> 56) % 256, (n >>> 48) % 256, (n >>> 40) % 256, (n >>> 32) % 256,
   (n >>> 24) % 256, (n >>> 16) % 256, (n >>> 8) % 256, n % 256]

/-- SHA-1 message padding: append `0x80`, zero bytes up to 56 mod 64, and
the 64-bit big-endian bit length. -/
def sha1Pad (msg : List Nat) : List Nat :=
  msg ++ [128] ++ List.replicate ((119 - msg.length % 64) % 64) 0 ++
    len64 (8 * msg.length)

/-- Extend the 16 words of a block, `n` more words: each new word is the
rotation by one of the xor of the words 3, 8, 14 and 16 positions back. -/
def sha1Extend : Nat → List Nat → List Nat
  | 0, ws => ws
  | n + 1, ws =>
      let i := ws.length
      sha1Extend n (ws ++ [rotl 1 ((ws.getD (i - 3) 0) ^^^ (ws.getD (i - 8) 0) ^^^
        (ws.getD (i - 14) 0) ^^^ (ws.getD (i - 16) 0))])

/-- The SHA-1 round function. -/
def sha1F (i b c d : Nat) : Nat :=
  if i < 20 then (b &&& c) ||| ((b ^^^ 4294967295) &&& d)
  else if i < 40 then b ^^^ c ^^^ d
  else if i < 60 then (b &&& c) ||| (b &&& d) ||| (c &&& d)
  else b ^^^ c ^^^ d

/-- The SHA-1 round constants. -/
def sha1K (i : Nat) : Nat :=
  if i < 20 then 0x5A827999
  else if i < 40 then 0x6ED9EBA1
  else if i < 60 then 0x8F1BBCDC
  else 0xCA62C1D6

/-- Compress one 64-byte block into the running 5-word state. -/
def sha1Compress (h : Nat × Nat × Nat × Nat × Nat) (block : List Nat) :
    Nat × Nat × Nat × Nat × Nat :=
  let ws := sha1Extend 64 (toWords block)
  let (h0, h1, h2, h3, h4) := h
  let st := ws.enum.foldl
    (fun (st : Nat × Nat × Nat × Nat × Nat) iw =>
      let (a, b, c, d, e) := st
      let t := w32 (rotl 5 a + sha1F iw.1 b c d + e + sha1K iw.1 + iw.2)
      (t, a, rotl 30 b, c, d))
    (h0, h1, h2, h3, h4)
  (w32 (h0 + st.1), w32 (h1 + st.2.1), w32 (h2 + st.2.2.1),
   w32 (h3 + st.2.2.2.1), w32 (h4 + st.2.2.2.2))

/-- Fold `sha1Compress` over the message: bytes accumulate into a 64-byte
block buffer, compressed whenever it fills (the padded message's length is
a multiple of 64, so no partial block remains at the end). -/
def sha1Run (h : Nat × Nat × Nat × Nat × Nat) (buf : List Nat) :
    List Nat → (Nat × Nat × Nat × Nat × Nat) × List Nat
  | [] => (h, buf)
  | b :: rest =>
      let buf2 := buf ++ [b]
      if buf2.length = 64 then sha1Run (sha1Compress h buf2) [] rest
      else sha1Run h buf2 rest

/-- A 32-bit word as 4 big-endian bytes. -/
def word2bytes (w : Nat) : List Nat :=
  [(w >>> 24) % 256, (w >>> 16) % 256, (w >>> 8) % 256, w % 256]

/-- Embeds `hashlib.sha1(msg).digest()`: the 20-byte SHA-1 digest. -/
def sha1Hash (msg : List Nat) : List Nat :=
  let h := (sha1Run (0x67452301, 0xEFCDAB89, 0x98BADCFE, 0x10325476, 0xC3D2E1F0)
    [] (sha1Pad msg)).1
  word2bytes h.1 ++ word2bytes h.2.1 ++ word2bytes h.2.2.1 ++
    word2bytes h.2.2.2.1 ++ word2bytes h.2.2.2.2

/-! ## The abstract RSA library and byte-string stripping -/

/-- An RSA key as the engine observes it through the PyCryptodome library:
`pem` is `key.exportKey("PEM")` (the private-key serialization) and `der`
is `key.publickey().exportKey("DER")` (the public-key serialization).
`RSA.importKey` is abstracted as a parameter `importKey : List Nat → Option RsaKey`
of the operations below, `none` modelling the library's parse exception. -/
structure RsaKey where
  pem : List Nat
  der : List Nat
  deriving DecidableEq, Repr

/-- The six ASCII whitespace bytes stripped by Python's `bytes.strip()`. -/
def isSpaceByte (b : Nat) : Bool :=
  b == 32 || b == 9 || b == 10 || b == 13 || b == 11 || b == 12

/-- Python's `bytes.strip()`: remove ASCII whitespace from both ends. -/
def bstrip (l : List Nat) : List Nat :=
  ((l.dropWhile isSpaceByte).reverse.dropWhile isSpaceByte).reverse

/-! ## State, filesystem and errors -/

/-- The mutable state of an `OnionV2` instance: `_priv`, `_pub` and
`_hidden_service_path` (Python `None` is `none`; the path's `None` and `""`
are indistinguishable to the code's truthiness tests, so the unset path is
the empty string). -/
structure OnionState where
  priv : Option (List Nat)
  pub : Option (List Nat)
  hsPath : String
  deriving DecidableEq, Repr

/-- The contents of one hidden-service directory: the two files the engine
reads and writes. `private_key` holds bytes; `hostname` is written in text
mode and holds a string. -/
structure HsDir where
  privateKeyFile : Option (List Nat)
  hostnameFile : Option String
  deriving DecidableEq, Repr

/-- The filesystem: a map from paths to existing directories (`none` means
the path does not exist). -/
def FS : Type := String → Option HsDir

/-- Replace the directory at path `p`. -/
def FS.update (fs : FS) (p : String) (d : HsDir) : FS :=
  fun q => if q = p then some d else fs q

/-- The exceptions the module raises, distinguished by raise site.
`emptyDir` is the distinguished `EmptyDirException`; the others are the
module's plain `Exception`s and the library errors:
`notADirectory` = "... should be an existing directory" in `load_hidden_service`,
`invalidKey` = `RSA.importKey` failure, `missingPath` = "Missing hidden
service path", `directoryNotFound` = "... should be an existing directory" in
`write_hidden_service`, `keyAlreadyExists` = "Use force=True for non empty
hidden service directory", `noPrivateKey` / `noPublicKey` = the `TypeError`s
from using an unset `_priv` / `_pub`. -/
inductive PyError where
  | emptyDir
  | notADirectory
  | invalidKey
  | missingPath
  | directoryNotFound
  | keyAlreadyExists
  | noPrivateKey
  | noPublicKey
  deriving DecidableEq, Repr

/-- Python truthiness of an optional byte string (`None` and `b""` are falsy). -/
def bytesTruthy : Option (List Nat) → Bool
  | none => false
  | some l => !l.isEmpty

/-! ## OnionV2 operations (`src/pytor/onion.py`) -/

namespace OnionV2

/-- Embeds `OnionV2._save_keypair`: store the PEM private export in `_priv` and the
DER public export in `_pub`. -/
def saveKeypair (k : RsaKey) (st : OnionState) : OnionState :=
  { st with priv := some k.pem, pub := some k.der }

/-- Embeds `OnionV2.set_private_key`: `self._save_keypair(RSA.importKey(key.strip()))`. -/
def setPrivateKey (importKey : List Nat → Option RsaKey) (key : List Nat)
    (st : OnionState) : Except PyError OnionState :=
  match importKey (bstrip key) with
  | some k => .ok (saveKeypair k st)
  | none => .error .invalidKey

/-- Embeds `OnionV2.gen_new_private_key`: `RSA.generate(bits=1024)` is external
randomness, modelled by the supplied fresh key. -/
def genNewPrivateKey (freshKey : RsaKey) (st : OnionState) : OnionState :=
  saveKeypair freshKey st

/-- Embeds `OnionV2.load_hidden_service`: error if the path is not an existing
directory, the distinguished `EmptyDirException` if it has no `private_key`
file, else `set_private_key` on the file's bytes. -/
def loadHiddenService (importKey : List Nat → Option RsaKey) (fs : FS)
    (path : String) (st : OnionState) : Except PyError OnionState :=
  match fs path with
  | none => .error .notADirectory
  | some d =>
    match d.privateKeyFile with
    | none => .error .emptyDir
    | some kb => setPrivateKey importKey kb st

/-- The first phase of `Onion.__init__`: if a (truthy) `hidden_service_path`
was given, try to load it, catching only `EmptyDirException`, and record the
path; a fresh instance starts from the class defaults `None`/`None`/`None`. -/
def initStep1 (importKey : List Nat → Option RsaKey) (fs : FS)
    (hiddenServicePath : String) : Except PyError OnionState :=
  if hiddenServicePath ≠ "" then
    match loadHiddenService importKey fs hiddenServicePath ⟨none, none, ""⟩ with
    | .error .emptyDir => .ok ⟨none, none, hiddenServicePath⟩
    | .error e => .error e
    | .ok st => .ok { st with hsPath := hiddenServicePath }
  else .ok ⟨none, none, ""⟩

/-- The second phase of `Onion.__init__`: a (truthy) `private_key` argument
overrides whatever was loaded. -/
def initStep2 (importKey : List Nat → Option RsaKey) (privateKey : List Nat)
    (st : OnionState) : Except PyError OnionState :=
  if privateKey ≠ [] then setPrivateKey importKey privateKey st else .ok st

/-- The third phase of `Onion.__init__`: generate a fresh key when `_priv`
is still falsy. -/
def initStep3 (freshKey : RsaKey) (st : OnionState) : OnionState :=
  if bytesTruthy st.priv then st else genNewPrivateKey freshKey st

/-- Embeds `Onion.__init__` for the V2 scheme: optionally load from
`hidden_service_path` (tolerating `EmptyDirException`), optionally override
with the supplied `private_key`, and generate a fresh key if `_priv` is still
unset. Python's falsy `None`/`""`/`b""` arguments are the empty string and
the empty list; any uncaught exception aborts construction. -/
def init (importKey : List Nat → Option RsaKey) (freshKey : RsaKey) (fs : FS)
    (privateKey : List Nat) (hiddenServicePath : String) :
    Except PyError OnionState :=
  match initStep1 importKey fs hiddenServicePath with
  | .error e => .error e
  | .ok st1 =>
    match initStep2 importKey privateKey st1 with
    | .error e => .error e
    | .ok st2 => .ok (initStep3 freshKey st2)

/-- Embeds `OnionV2.get_onion_str`:
`b32encode(sha1(self._pub[22:]).digest()[:10]).decode().lower()`. -/
def getOnionStr (pub : List Nat) : String :=
  String.mk ((b32encode ((sha1Hash (pub.drop 22)).take 10)).map Char.toLower)

/-- Embeds `Onion.onion_address`: the label plus `".onion"`. -/
def onionAddress (pub : List Nat) : String := getOnionStr pub ++ ".onion"

/-- Embeds `Onion.onion_address` read off an instance's state (`None` public key
would raise). -/
def onionAddressOfState (st : OnionState) : Option String :=
  st.pub.map onionAddress

/-- Embeds `OnionV2._get_private_key_has_native` =
`RSA.importKey(self._priv).exportKey("PEM")` (no stripping here). -/
def getPrivateKeyNative (importKey : List Nat → Option RsaKey)
    (st : OnionState) : Except PyError (List Nat) :=
  match st.priv with
  | none => .error .noPrivateKey
  | some pb =>
    match importKey pb with
    | some k => .ok k.pem
    | none => .error .invalidKey

/-- Embeds `OnionV2.write_hidden_service`: falls back to the instance's stored
path, checks existence and the `force` gate, then writes `private_key` and
`hostname`. Each `open(..., "w")` truncates the file before the written
value is computed, so a failure while computing it leaves that file empty;
the function returns the raised error (if any) together with the filesystem
as it stands at that point. -/
def writeHiddenService (importKey : List Nat → Option RsaKey) (fs : FS)
    (st : OnionState) (path : String) (force : Bool) : Option PyError × FS :=
  let p := if path ≠ "" then path else st.hsPath
  if p = "" then (some .missingPath, fs)
  else
    match fs p with
    | none => (some .directoryNotFound, fs)
    | some d =>
      if d.privateKeyFile.isSome && !force then (some .keyAlreadyExists, fs)
      else
        let fs1 := fs.update p { d with privateKeyFile := some [] }
        match getPrivateKeyNative importKey st with
        | .error e => (some e, fs1)
        | .ok nb =>
          let d2 : HsDir := { d with privateKeyFile := some nb }
          let fs3 := fs.update p { d2 with hostnameFile := some "" }
          match st.pub with
          | none => (some .noPublicKey, fs3)
          | some pub => (none, fs.update p { d2 with hostnameFile := some (onionAddress pub) })

end OnionV2

/-! ## OnionV3 address derivation -/

namespace OnionV3

/-- The ASCII bytes of `".onion checksum"`. -/
def checksumTag : List Nat :=
  [46, 111, 110, 105, 111, 110, 32, 99, 104, 101, 99, 107, 115, 117, 109]

/-- Modelled from the spec: `class OnionV3` in the source declares only
`_version = 3` and implements none of the abstract methods, so the V3
address derivation is missing from the code; §4.2 defines it as
`checksum = SHA3-256(".onion checksum" || public_key || version_byte)[0:2]`
with `version_byte = 0x03`, then Base32 (no padding, lowercased) of
`public_key || checksum || version_byte`. SHA3-256 is an external
primitive and stays a parameter. -/
def getOnionStr (sha3 : List Nat → List Nat) (pub : List Nat) : String :=
  let checksum := (sha3 (checksumTag ++ pub ++ [3])).take 2
  String.mk ((b32noPadding (pub ++ checksum ++ [3])).map Char.toLower)

/-- Modelled from the spec: the V3 onion address is the label plus `".onion"`
(the `Onion.onion_address` property of the source). -/
def onionAddress (sha3 : List Nat → List Nat) (pub : List Nat) : String :=
  getOnionStr sha3 pub ++ ".onion"

end OnionV3

/-! ## Supporting lemmas -/

theorem b32group_length (b0 b1 b2 b3 b4 : Nat) : (b32group b0 b1 b2 b3 b4).length = 8 :=
  rfl

theorem b32chunks_length : ∀ bs : List Nat, (b32chunks bs).length = 8 * (bs.length / 5)
  | b0 :: b1 :: b2 :: b3 :: b4 :: rest => by
      have ih := b32chunks_length rest
      simp only [b32chunks, List.length_append, b32group_length, ih, List.length_cons]
      omega
  | [] => by simp [b32chunks]
  | [_] => by simp [b32chunks]
  | [_, _] => by simp [b32chunks]
  | [_, _, _] => by simp [b32chunks]
  | [_, _, _, _] => by simp [b32chunks]

theorem b32encode_eq_chunks (bs : List Nat) (h : bs.length % 5 = 0) :
    b32encode bs = b32chunks bs := by
  simp [b32encode, h, List.take_length]

theorem b32noPadding_eq_chunks (bs : List Nat) (h : bs.length % 5 = 0) :
    b32noPadding bs = b32chunks bs := by
  have h0 : (5 - bs.length % 5) % 5 = 0 := by rw [h]
  have h8 : (bs.length * 8 + 4) / 5 = 8 * (bs.length / 5) := by omega
  unfold b32noPadding
  rw [h0, h8, List.replicate_zero, List.append_nil, ← b32chunks_length bs,
    List.take_length]

theorem sha1Hash_length (msg : List Nat) : (sha1Hash msg).length = 20 := by
  simp [sha1Hash, word2bytes]

/-- The V2 label always has 16 characters, whatever the input bytes. -/
theorem getOnionStrV2_length (pub : List Nat) : (OnionV2.getOnionStr pub).length = 16 := by
  have h10 : ((sha1Hash (pub.drop 22)).take 10).length = 10 := by
    simp [List.length_take, sha1Hash_length]
  have henc := b32encode_eq_chunks ((sha1Hash (pub.drop 22)).take 10)
    (by rw [h10])
  have hlen := b32chunks_length ((sha1Hash (pub.drop 22)).take 10)
  rw [h10] at hlen
  simp [OnionV2.getOnionStr, String.length, henc, hlen]

theorem dropWhile_append_of_forall {p : Nat → Bool} {w l : List Nat}
    (hw : ∀ b ∈ w, p b = true) : (w ++ l).dropWhile p = l.dropWhile p := by
  induction w with
  | nil => rfl
  | cons a t ih =>
      have ha : p a = true := hw a (List.mem_cons_self a t)
      simp only [List.cons_append, List.dropWhile_cons, ha, if_true]
      exact ih (fun b hb => hw b (List.mem_cons_of_mem a hb))

/-- Stripping is unaffected by extra ASCII whitespace at either end. -/
theorem bstrip_pad {w1 key w2 : List Nat}
    (hw1 : ∀ b ∈ w1, isSpaceByte b = true) (hw2 : ∀ b ∈ w2, isSpaceByte b = true) :
    bstrip (w1 ++ key ++ w2) = bstrip key := by
  unfold bstrip
  rw [List.append_assoc, dropWhile_append_of_forall hw1, List.dropWhile_append]
  by_cases hk : (key.dropWhile isSpaceByte).isEmpty
  · rw [if_pos hk]
    have h2 : w2.dropWhile isSpaceByte = [] := List.dropWhile_eq_nil_iff.mpr hw2
    have hkey : key.dropWhile isSpaceByte = [] := by
      rwa [List.isEmpty_iff] at hk
    rw [h2, hkey]
  · rw [if_neg hk, List.reverse_append,
      dropWhile_append_of_forall (fun b hb => hw2 b (List.mem_reverse.mp hb))]

theorem bytesTruthy_some {l : List Nat} (h : l ≠ []) : bytesTruthy (some l) = true := by
  simp [bytesTruthy, h]

/-- After the third `__init__` phase the private key is always truthy,
provided generation yields a truthy PEM export. -/
theorem initStep3_priv_truthy {freshKey : RsaKey} (st : OnionState)
    (hfresh : freshKey.pem ≠ []) :
    bytesTruthy (OnionV2.initStep3 freshKey st).priv = true := by
  unfold OnionV2.initStep3
  by_cases h : bytesTruthy st.priv = true
  · rw [if_pos h]; exact h
  · rw [if_neg h]
    exact bytesTruthy_some hfresh

/-! ## Claims -/

/-- C1: for every 32-byte Ed25519 public key, the V3 address label is the
lowercased unpadded Base32 encoding of
`public_key ++ SHA3-256(".onion checksum" ++ public_key ++ [0x03])[0:2] ++ [0x03]`,
it has 56 characters, and the V3 onion address is this label plus `".onion"`
(V3 derivation modelled from the spec; SHA3-256 is an external primitive
whose digests have 32 bytes). -/
theorem c1_v3_address_derivation (sha3 : List Nat → List Nat) (pub : List Nat)
    (hpub : pub.length = 32)
    (hsha : (sha3 (OnionV3.checksumTag ++ pub ++ [3])).length = 32) :
    OnionV3.onionAddress sha3 pub = OnionV3.getOnionStr sha3 pub ++ ".onion" ∧
    OnionV3.getOnionStr sha3 pub =
      String.mk ((b32noPadding
        (pub ++ (sha3 (OnionV3.checksumTag ++ pub ++ [3])).take 2 ++ [3])).map
          Char.toLower) ∧
    (OnionV3.getOnionStr sha3 pub).length = 56 := by
  refine ⟨rfl, rfl, ?_⟩
  have h35 : (pub ++ (sha3 (OnionV3.checksumTag ++ pub ++ [3])).take 2 ++ [3]).length = 35 := by
    simp only [List.length_append, List.length_take, List.length_cons,
      List.length_nil, hsha, hpub]
    omega
  have henc := b32noPadding_eq_chunks
    (pub ++ (sha3 (OnionV3.checksumTag ++ pub ++ [3])).take 2 ++ [3]) (by rw [h35])
  have hlen := b32chunks_length
    (pub ++ (sha3 (OnionV3.checksumTag ++ pub ++ [3])).take 2 ++ [3])
  rw [h35] at hlen
  calc (OnionV3.getOnionStr sha3 pub).length
      = ((b32noPadding
          (pub ++ (sha3 (OnionV3.checksumTag ++ pub ++ [3])).take 2 ++ [3])).map
            Char.toLower).length := rfl
    _ = 56 := by rw [List.length_map, henc, hlen]

theorem c1_v3_address_derivation_witness :
    ((List.replicate 32 0 : List Nat).length = 32) ∧
    (OnionV3.getOnionStr (fun _ => List.replicate 32 1) (List.replicate 32 0)).length = 56 :=
  ⟨by simp,
    (c1_v3_address_derivation (fun _ => List.replicate 32 1) (List.replicate 32 0)
      (by simp) (by simp)).2.2⟩

/-- C2: for a V2 identity's 162-byte DER public key (RSA-1024), the label is
the lowercased unpadded Base32 encoding of the first 10 bytes of the SHA-1
digest of the DER bytes with the fixed 22-byte header removed, and it has
exactly 16 characters. -/
theorem c2_v2_label_derivation (pub : List Nat) (_hpub : pub.length = 162) :
    OnionV2.getOnionStr pub =
      String.mk ((b32noPadding ((sha1Hash (pub.drop 22)).take 10)).map Char.toLower) ∧
    (OnionV2.getOnionStr pub).length = 16 := by
  constructor
  · have h10 : ((sha1Hash (pub.drop 22)).take 10).length = 10 := by
      simp [List.length_take, sha1Hash_length]
    unfold OnionV2.getOnionStr
    rw [b32encode_eq_chunks ((sha1Hash (pub.drop 22)).take 10) (by rw [h10]),
      b32noPadding_eq_chunks ((sha1Hash (pub.drop 22)).take 10) (by rw [h10])]
  · exact getOnionStrV2_length pub

theorem c2_v2_label_derivation_witness :
    ((List.replicate 162 0 : List Nat).length = 162) ∧
    (OnionV2.getOnionStr (List.replicate 162 0)).length = 16 :=
  ⟨by simp, (c2_v2_label_derivation (List.replicate 162 0) (by simp)).2⟩

/-- C3: `write_hidden_service` on a directory that already has a
`private_key` file, with `force = False`, raises the key-already-exists
error and returns with the filesystem exactly as it was (no file touched). -/
theorem c3_write_without_force_preserves_files
    (importKey : List Nat → Option RsaKey) (fs : FS) (st : OnionState)
    (path : String) (d : HsDir) (kb : List Nat)
    (hpath : path ≠ "") (hfs : fs path = some d)
    (hkey : d.privateKeyFile = some kb) :
    OnionV2.writeHiddenService importKey fs st path false =
      (some .keyAlreadyExists, fs) := by
  unfold OnionV2.writeHiddenService
  simp [hpath, hfs, hkey]

theorem c3_write_without_force_preserves_files_witness :
    OnionV2.writeHiddenService (fun _ => none)
      (fun q => if q = "hs" then some ⟨some [1, 2], some "old.onion"⟩ else none)
      ⟨none, none, ""⟩ "hs" false =
    (some .keyAlreadyExists,
      fun q => if q = "hs" then some ⟨some [1, 2], some "old.onion"⟩ else none) :=
  c3_write_without_force_preserves_files (fun _ => none) _ _ "hs"
    ⟨some [1, 2], some "old.onion"⟩ [1, 2] (by decide) (by simp) rfl

/-- C4: when both a private key and a hidden-service path are supplied and
construction succeeds, the supplied bytes determine the resulting key pair
(and hence the address), regardless of the directory's contents. -/
theorem c4_explicit_key_overrides (importKey : List Nat → Option RsaKey)
    (freshKey : RsaKey) (fs : FS) (pk : List Nat) (hsp : String) (rk : RsaKey)
    (st : OnionState)
    (hpk : pk ≠ []) (himp : importKey (bstrip pk) = some rk) (hpem : rk.pem ≠ [])
    (hok : OnionV2.init importKey freshKey fs pk hsp = .ok st) :
    st.priv = some rk.pem ∧ st.pub = some rk.der ∧
    OnionV2.onionAddressOfState st = some (OnionV2.onionAddress rk.der) := by
  unfold OnionV2.init at hok
  cases h1 : OnionV2.initStep1 importKey fs hsp with
  | error e => rw [h1] at hok; simp at hok
  | ok st1 =>
    simp only [h1] at hok
    have h2 : OnionV2.initStep2 importKey pk st1 = .ok (OnionV2.saveKeypair rk st1) := by
      simp [OnionV2.initStep2, hpk, OnionV2.setPrivateKey, himp]
    simp only [h2, Except.ok.injEq] at hok
    have h3 : OnionV2.initStep3 freshKey (OnionV2.saveKeypair rk st1) =
        OnionV2.saveKeypair rk st1 := by
      unfold OnionV2.initStep3
      rw [if_pos]
      exact bytesTruthy_some hpem
    rw [h3] at hok
    subst hok
    exact ⟨rfl, rfl, rfl⟩

theorem c4_explicit_key_overrides_witness :
    (([5] : List Nat) ≠ []) ∧
    ((fun bs => some (RsaKey.mk bs bs)) (bstrip [5]) = some (RsaKey.mk [5] [5])) ∧
    (OnionV2.init (fun bs => some (RsaKey.mk bs bs)) ⟨[1], [2]⟩
      (fun q => if q = "hs" then some ⟨some [8], none⟩ else none) [5] "hs" =
      .ok ⟨some [5], some [5], "hs"⟩) ∧
    ((⟨some [5], some [5], "hs"⟩ : OnionState).priv = some [5]) :=
  ⟨by decide, rfl, rfl,
    (c4_explicit_key_overrides (fun bs => some (RsaKey.mk bs bs)) ⟨[1], [2]⟩
      (fun q => if q = "hs" then some ⟨some [8], none⟩ else none) [5] "hs"
      (RsaKey.mk [5] [5]) ⟨some [5], some [5], "hs"⟩
      (by decide) rfl (by decide) rfl).1⟩

/-- C5: every successful construction ends with a private key present
(generation, whose PEM export is nonempty, is the fallback). -/
theorem c5_private_key_always_present (importKey : List Nat → Option RsaKey)
    (freshKey : RsaKey) (fs : FS) (pk : List Nat) (hsp : String) (st : OnionState)
    (hfresh : freshKey.pem ≠ [])
    (hok : OnionV2.init importKey freshKey fs pk hsp = .ok st) :
    bytesTruthy st.priv = true := by
  unfold OnionV2.init at hok
  cases h1 : OnionV2.initStep1 importKey fs hsp with
  | error e => rw [h1] at hok; simp at hok
  | ok st1 =>
    simp only [h1] at hok
    cases h2 : OnionV2.initStep2 importKey pk st1 with
    | error e => simp only [h2] at hok; simp at hok
    | ok st2 =>
      simp only [h2, Except.ok.injEq] at hok
      subst hok
      exact initStep3_priv_truthy st2 hfresh

theorem c5_private_key_always_present_witness :
    ((RsaKey.mk [1] [2]).pem ≠ []) ∧
    (OnionV2.init (fun _ => none) ⟨[1], [2]⟩ (fun _ => none) [] "" =
      .ok ⟨some [1], some [2], ""⟩) ∧
    bytesTruthy (⟨some [1], some [2], ""⟩ : OnionState).priv = true :=
  ⟨by decide, rfl,
    c5_private_key_always_present (fun _ => none) ⟨[1], [2]⟩ (fun _ => none) [] ""
      ⟨some [1], some [2], ""⟩ (by decide) rfl⟩

/-- C6: a directory that exists but has no `private_key` file makes
`load_hidden_service` raise the distinguished empty-directory signal, and a
construction pointed at it succeeds, falling back to a freshly generated
key (with the path recorded). -/
theorem c6_empty_directory_falls_back_to_generation
    (importKey : List Nat → Option RsaKey) (freshKey : RsaKey) (fs : FS)
    (path : String) (d : HsDir) (st : OnionState)
    (hpath : path ≠ "") (hd : fs path = some d)
    (hnokey : d.privateKeyFile = none) :
    OnionV2.loadHiddenService importKey fs path st = .error .emptyDir ∧
    OnionV2.init importKey freshKey fs [] path =
      .ok ⟨some freshKey.pem, some freshKey.der, path⟩ := by
  constructor
  · simp [OnionV2.loadHiddenService, hd, hnokey]
  · have h1 : OnionV2.initStep1 importKey fs path = .ok ⟨none, none, path⟩ := by
      simp [OnionV2.initStep1, hpath, OnionV2.loadHiddenService, hd, hnokey]
    unfold OnionV2.init
    rw [h1]
    simp [OnionV2.initStep2, OnionV2.initStep3, bytesTruthy,
      OnionV2.genNewPrivateKey, OnionV2.saveKeypair]

theorem c6_empty_directory_falls_back_to_generation_witness :
    (("hs" : String) ≠ "") ∧
    ((fun q => if q = "hs" then some (HsDir.mk none (some "stale")) else none) "hs" =
      some (HsDir.mk none (some "stale"))) ∧
    (OnionV2.loadHiddenService (fun _ => none)
      (fun q => if q = "hs" then some (HsDir.mk none (some "stale")) else none) "hs"
      ⟨none, none, ""⟩ = .error .emptyDir) ∧
    (OnionV2.init (fun _ => none) ⟨[1], [2]⟩
      (fun q => if q = "hs" then some (HsDir.mk none (some "stale")) else none) [] "hs" =
      .ok ⟨some [1], some [2], "hs"⟩) :=
  ⟨by decide, by simp,
    (c6_empty_directory_falls_back_to_generation (fun _ => none) ⟨[1], [2]⟩ _ "hs"
      (HsDir.mk none (some "stale")) ⟨none, none, ""⟩ (by decide) (by simp) rfl).1,
    (c6_empty_directory_falls_back_to_generation (fun _ => none) ⟨[1], [2]⟩ _ "hs"
      (HsDir.mk none (some "stale")) ⟨none, none, ""⟩ (by decide) (by simp) rfl).2⟩

set_option maxRecDepth 8000 in
/-- C7 (the claim as stated is false): a 31-byte "public key" — malformed
for either scheme — is silently truncated by the 22-byte slice and still
yields an onion address; no malformed-key failure occurs. -/
theorem c7_counterexample :
    OnionV2.onionAddress (List.replicate 31 0) = "yjm6o4nsg53jznv4.onion" ∧
    (OnionV2.getOnionStr (List.replicate 31 0)).length = 16 := by
  constructor
  · decide
  · decide

/-- C7 (amended): V2 address derivation performs no length validation at
all: for a public key of any length (malformed included) it silently
truncates via the fixed 22-byte slice and returns a 16-character label;
the code has no malformed-public-key error. -/
theorem c7_amended_no_length_validation (pub : List Nat) :
    (OnionV2.getOnionStr pub).length = 16 :=
  getOnionStrV2_length pub

/-- C8: exporting a generated key in the native (PEM) encoding and feeding
those bytes back through `set_private_key` reproduces the same key pair,
hence an identical onion address (the RSA library's parse/export round-trip
and whitespace-free PEM export are assumed as hypotheses). -/
theorem c8_native_roundtrip (importKey : List Nat → Option RsaKey) (k : RsaKey)
    (st1 st2 : OnionState)
    (hik : importKey k.pem = some k) (hstrip : bstrip k.pem = k.pem) :
    OnionV2.getPrivateKeyNative importKey (OnionV2.genNewPrivateKey k st1) = .ok k.pem ∧
    OnionV2.setPrivateKey importKey k.pem st2 = .ok (OnionV2.saveKeypair k st2) ∧
    OnionV2.onionAddressOfState (OnionV2.saveKeypair k st2) =
      OnionV2.onionAddressOfState (OnionV2.genNewPrivateKey k st1) := by
  refine ⟨?_, ?_, ?_⟩
  · simp [OnionV2.getPrivateKeyNative, OnionV2.genNewPrivateKey, OnionV2.saveKeypair, hik]
  · simp [OnionV2.setPrivateKey, hstrip, hik]
  · simp [OnionV2.onionAddressOfState, OnionV2.saveKeypair, OnionV2.genNewPrivateKey]

theorem c8_native_roundtrip_witness :
    ((fun bs => some (RsaKey.mk bs [7])) (RsaKey.mk [65] [7]).pem =
      some (RsaKey.mk [65] [7])) ∧
    (bstrip (RsaKey.mk [65] [7]).pem = (RsaKey.mk [65] [7]).pem) ∧
    (OnionV2.getPrivateKeyNative (fun bs => some (RsaKey.mk bs [7]))
      (OnionV2.genNewPrivateKey (RsaKey.mk [65] [7]) ⟨none, none, ""⟩) = .ok [65]) :=
  ⟨rfl, by decide,
    (c8_native_roundtrip (fun bs => some (RsaKey.mk bs [7])) (RsaKey.mk [65] [7])
      ⟨none, none, ""⟩ ⟨none, none, ""⟩ rfl (by decide)).1⟩

set_option maxRecDepth 8000 in
/-- C9 (the claim as stated is false): a concrete successful write stores
in `hostname` exactly the address with no trailing newline — the content
differs from the claimed `address ++ "\n"`. -/
theorem c9_counterexample :
    (OnionV2.writeHiddenService (fun _ => some (RsaKey.mk [1] [2]))
        (fun q => if q = "d" then some (HsDir.mk none none) else none)
        ⟨some [9], some [], "d"⟩ "d" false).2 "d" =
      some (HsDir.mk (some [1]) (some "3i42h3s6nnfq2msv.onion")) ∧
    ("3i42h3s6nnfq2msv.onion" : String) ≠ "3i42h3s6nnfq2msv.onion" ++ "\n" := by
  constructor
  · decide
  · decide

/-- C9 (amended): every successful `write_hidden_service` stores in
`hostname` the address label followed by `".onion"`, with no trailing
newline (and in `private_key` the native PEM export). -/
theorem c9_amended_hostname_content (importKey : List Nat → Option RsaKey)
    (fs : FS) (st : OnionState) (path : String) (force : Bool) (d : HsDir)
    (pb pub : List Nat) (rk : RsaKey)
    (hpath : path ≠ "") (hfs : fs path = some d)
    (hgate : (d.privateKeyFile.isSome && !force) = false)
    (hpriv : st.priv = some pb) (himp : importKey pb = some rk)
    (hpub : st.pub = some pub) :
    (OnionV2.writeHiddenService importKey fs st path force).1 = none ∧
    (OnionV2.writeHiddenService importKey fs st path force).2 path =
      some (HsDir.mk (some rk.pem) (some (OnionV2.getOnionStr pub ++ ".onion"))) := by
  unfold OnionV2.writeHiddenService
  simp [hpath, hfs, hgate, OnionV2.getPrivateKeyNative, hpriv, himp, hpub,
    FS.update, OnionV2.onionAddress]

theorem c9_amended_hostname_content_witness :
    (("d" : String) ≠ "") ∧
    ((OnionV2.writeHiddenService (fun _ => some (RsaKey.mk [1] [2]))
        (fun q => if q = "d" then some (HsDir.mk none none) else none)
        ⟨some [9], some [], "d"⟩ "d" false).2 "d" =
      some (HsDir.mk (some [1]) (some (OnionV2.getOnionStr [] ++ ".onion")))) :=
  ⟨by decide,
    (c9_amended_hostname_content (fun _ => some (RsaKey.mk [1] [2]))
      (fun q => if q = "d" then some (HsDir.mk none none) else none)
      ⟨some [9], some [], "d"⟩ "d" false (HsDir.mk none none) [9] [] (RsaKey.mk [1] [2])
      (by decide) (by simp) rfl rfl rfl rfl).2⟩

/-- C10: `set_private_key` strips ASCII whitespace before parsing, so a
whitespace-padded key produces exactly the same resulting state (same PEM,
same public key, hence the same address) as the unpadded key. -/
theorem c10_set_private_key_strips_whitespace (importKey : List Nat → Option RsaKey)
    (key w1 w2 : List Nat) (st : OnionState)
    (hw1 : ∀ b ∈ w1, isSpaceByte b = true) (hw2 : ∀ b ∈ w2, isSpaceByte b = true) :
    OnionV2.setPrivateKey importKey (w1 ++ key ++ w2) st =
      OnionV2.setPrivateKey importKey key st := by
  unfold OnionV2.setPrivateKey
  rw [bstrip_pad hw1 hw2]

theorem c10_set_private_key_strips_whitespace_witness :
    (∀ b ∈ ([32, 10] : List Nat), isSpaceByte b = true) ∧
    (∀ b ∈ ([9] : List Nat), isSpaceByte b = true) ∧
    (OnionV2.setPrivateKey (fun bs => some (RsaKey.mk bs bs))
        ([32, 10] ++ [65, 66] ++ [9]) ⟨none, none, ""⟩ =
      OnionV2.setPrivateKey (fun bs => some (RsaKey.mk bs bs)) [65, 66] ⟨none, none, ""⟩) :=
  ⟨by decide, by decide,
    c10_set_private_key_strips_whitespace (fun bs => some (RsaKey.mk bs bs))
      [65, 66] [32, 10] [9] ⟨none, none, ""⟩ (by decide) (by decide)⟩

end Pytor
